import Mathlib

/-!
Verification of the FRTA (fault-resilient, trust-aware) MANET routing
protocol.  The definitions below are a shallow embedding of the C++ sources
under `frta-routing/model`: doubles are modelled as rationals, ns-3 `Time`
as integer nanoseconds, IPv4 addresses and the u32 wire fields as natural
numbers (reduced mod 2^32 where the C++ arithmetic can wrap), and the
`std::map` / `std::set` containers as duplicate-free association lists.
-/

namespace Frta

/-! ## Association-list maps (model of std::map) -/

def mapLookup {α β : Type} [DecidableEq α] : List (α × β) → α → Option β
  | [], _ => none
  | (k, v) :: rest, k' => if k = k' then some v else mapLookup rest k'

def mapErase {α β : Type} [DecidableEq α] : List (α × β) → α → List (α × β)
  | [], _ => []
  | p :: rest, k => if p.1 = k then mapErase rest k else p :: mapErase rest k

def mapInsert {α β : Type} [DecidableEq α] (m : List (α × β)) (k : α) (v : β) :
    List (α × β) :=
  (k, v) :: mapErase m k

def setInsert (l : List Nat) (x : Nat) : List Nat :=
  if x ∈ l then l else x :: l

def setErase : List Nat → Nat → List Nat
  | [], _ => []
  | y :: rest, x => if y = x then setErase rest x else y :: setErase rest x

/-! ## Wire codec (frta-routing-header.cc)

Bytes are natural numbers below 256; a serialized message is a byte list.
The `trust` doubles of the reply and advertisement headers travel by their
IEEE-754 bit pattern, modelled as a 64-bit natural number `trustBits`. -/

def u32be (x : Nat) : List Nat :=
  [x / 2 ^ 24 % 256, x / 2 ^ 16 % 256, x / 2 ^ 8 % 256, x % 256]

def u64be (x : Nat) : List Nat :=
  u32be (x / 2 ^ 32) ++ u32be (x % 2 ^ 32)

def readU32 : List Nat → Nat × List Nat
  | b0 :: b1 :: b2 :: b3 :: rest =>
      (((b0 * 256 + b1) * 256 + b2) * 256 + b3, rest)
  | l => (0, l)

def readU64 (b : List Nat) : Nat × List Nat :=
  let (hi, b1) := readU32 b
  let (lo, b2) := readU32 b1
  (hi * 2 ^ 32 + lo, b2)

/-- Common one-byte header; `msgType` holds 1..4 in valid headers
(`SetMessageType` asserts that range). -/
structure FrtaHeader where
  msgType : Nat
deriving DecidableEq

def frtaHeaderSerialize (h : FrtaHeader) : List Nat :=
  [h.msgType % 256]

/-- Model of `FrtaHeader::Deserialize`: a tag byte outside 1..4 is coerced to
`FRTA_ROUTE_REQUEST = 1` (with only a log warning). -/
def frtaHeaderDeserialize (b : List Nat) : FrtaHeader :=
  let t := b.headD 0
  if 1 ≤ t ∧ t ≤ 4 then ⟨t⟩ else ⟨1⟩

def frtaHeaderGetSerializedSize : Nat := 1

structure RouteRequestHeader where
  destination : Nat
  source : Nat
  hopCount : Nat
deriving DecidableEq

def routeRequestSerialize (h : RouteRequestHeader) : List Nat :=
  u32be h.destination ++ u32be h.source ++ u32be h.hopCount

def routeRequestDeserialize (b : List Nat) : RouteRequestHeader :=
  let (d, b1) := readU32 b
  let (s, b2) := readU32 b1
  let (hc, _) := readU32 b2
  ⟨d, s, hc⟩

/-- Model of `RouteRequestHeader::GetSerializedSize`, which returns `8 + 8 + 4` in the
source (sizing the two IPv4 addresses at 8 bytes each). -/
def routeRequestGetSerializedSize : Nat := 8 + 8 + 4

structure RouteReplyHeader where
  destination : Nat
  nextHop : Nat
  trustBits : Nat
deriving DecidableEq

def routeReplySerialize (h : RouteReplyHeader) : List Nat :=
  u32be h.destination ++ u32be h.nextHop ++ u64be h.trustBits

def routeReplyDeserialize (b : List Nat) : RouteReplyHeader :=
  let (d, b1) := readU32 b
  let (nh, b2) := readU32 b1
  let (t, _) := readU64 b2
  ⟨d, nh, t⟩

/-- Model of `RouteReplyHeader::GetSerializedSize`, which returns `8 + 8 + 8` in the source. -/
def routeReplyGetSerializedSize : Nat := 8 + 8 + 8

structure RouteAdvertisementHeader where
  destination : Nat
  nextHop : Nat
  trustBits : Nat
  hopCount : Nat
deriving DecidableEq

def routeAdvertisementSerialize (h : RouteAdvertisementHeader) : List Nat :=
  u32be h.destination ++ u32be h.nextHop ++ u64be h.trustBits ++ u32be h.hopCount

def routeAdvertisementDeserialize (b : List Nat) : RouteAdvertisementHeader :=
  let (d, b1) := readU32 b
  let (nh, b2) := readU32 b1
  let (t, b3) := readU64 b2
  let (hc, _) := readU32 b3
  ⟨d, nh, t, hc⟩

/-- Model of `RouteAdvertisementHeader::GetSerializedSize`, which returns `8 + 8 + 8 + 4`. -/
def routeAdvertisementGetSerializedSize : Nat := 8 + 8 + 8 + 4

/-- Dispatch of `ReceiveRoutingPacket` on the decoded message type. -/
inductive DispatchCase
  | request
  | reply
  | advertisement
  | trustUpdate
  | unknown
deriving DecidableEq

def receiveDispatch (t : Nat) : DispatchCase :=
  if t = 1 then .request
  else if t = 2 then .reply
  else if t = 3 then .advertisement
  else if t = 4 then .trustUpdate
  else .unknown

/-! ## Collision detector (frta-collision-detector.cc) -/

structure TransmissionStats where
  lastTransmission : Int
  packetCount : Nat
  collisionProbability : ℚ
deriving DecidableEq

structure FrtaCollisionDetector where
  collisionProbabilityCache : ℚ
  cacheValid : Bool
  successCount : Nat
  totalCount : Nat
  transmissionStats : List (Nat × TransmissionStats)
deriving DecidableEq

def initCollisionDetector : FrtaCollisionDetector :=
  ⟨0, false, 0, 0, []⟩

/-- Model of `FrtaCollisionDetector::UpdateTransmissionStats`.  `operator[]`
value-initializes missing stats; the u32 counters wrap mod 2^32. -/
def updateTransmissionStats (d : FrtaCollisionDetector) (sender : Nat)
    (success : Bool) (now : Int) : FrtaCollisionDetector :=
  let stats := (mapLookup d.transmissionStats sender).getD ⟨0, 0, 0⟩
  let p := stats.collisionProbability
  let p' := if success then (1 - 1/10) * p else 1/10 + (1 - 1/10) * p
  { d with
    transmissionStats :=
      mapInsert d.transmissionStats sender
        ⟨now, (stats.packetCount + 1) % 2 ^ 32, p'⟩
    totalCount := (d.totalCount + 1) % 2 ^ 32
    successCount :=
      if success then (d.successCount + 1) % 2 ^ 32 else d.successCount
    cacheValid := false }

/-- Model of `FrtaCollisionDetector::GetCollisionProbability`: recomputes and stores
the cached value when the validity flag is down, else returns the cache. -/
def getCollisionProbability (d : FrtaCollisionDetector) :
    ℚ × FrtaCollisionDetector :=
  if d.cacheValid then (d.collisionProbabilityCache, d)
  else
    let v : ℚ :=
      if d.totalCount = 0 then 0
      else 1 - (d.successCount : ℚ) / (d.totalCount : ℚ)
    (v, { d with collisionProbabilityCache := v, cacheValid := true })

/-- Events touching the collision detector: statistics updates and
probability queries. -/
inductive CdEvent
  | update (sender : Nat) (success : Bool) (now : Int)
  | query
deriving DecidableEq

def cdStep (d : FrtaCollisionDetector) : CdEvent → FrtaCollisionDetector
  | .update s ok now => updateTransmissionStats d s ok now
  | .query => (getCollisionProbability d).2

def cdRun (evs : List CdEvent) : FrtaCollisionDetector :=
  evs.foldl cdStep initCollisionDetector

/-! ## Protocol state (frta-routing-protocol.cc) -/

def ROUTE_REQUEST_TIMEOUT : Int := 2000000000

def ROUTE_CACHE_TIMEOUT : Int := 30000000000

def MAX_HOP_COUNT : Nat := 10

def MIN_PATH_TRUST : ℚ := 1/2

def MAX_PATHS : Nat := 5

structure RouteEntry where
  nextHop : Nat
  trust : ℚ
  lastUpdate : Int
  hopCount : Nat
deriving DecidableEq

structure RouteRequestMsg where
  destination : Nat
  source : Nat
  hopCount : Nat
deriving DecidableEq

structure RouteReplyMsg where
  destination : Nat
  nextHop : Nat
  trust : ℚ
deriving DecidableEq

structure RouteAdvMsg where
  destination : Nat
  nextHop : Nat
  trust : ℚ
  hopCount : Nat
deriving DecidableEq

/-- The per-node mutable protocol state (the `m_` members of
`FrtaRoutingProtocol` that the verified operations read or write;
the routing table holds interface addresses). -/
structure ProtoState where
  routeCache : List (Nat × RouteEntry)
  trustValues : List (Nat × ℚ)
  packetCounts : List (Nat × Nat)
  pendingRequests : List Nat
  routeRequestTime : List (Nat × Int)
  pathTrustValues : List (List Nat × ℚ)
  routingTable : List Nat
deriving DecidableEq

def initState : ProtoState := ⟨[], [], [], [], [], [], []⟩

/-- Externally visible effects (packets sent or scheduled, timers). -/
inductive Action
  | broadcastRequest (msg : RouteRequestMsg)
  | scheduleRebroadcast (msg : RouteRequestMsg) (delayUs : Nat)
  | scheduleReply (msg : RouteReplyMsg) (target : Nat) (delayUs : Nat)
  | scheduleTimeout (destination : Nat)
deriving DecidableEq

/-- Model of `FrtaRoutingProtocol::UpdateTrustValue`: exponential smoothing with
alpha 0.7, default current value 0.5, result clamped to [0.1, 1.0]. -/
def updateTrustValue (s : ProtoState) (node : Nat) (trust : ℚ) : ProtoState :=
  let currentTrust := (mapLookup s.trustValues node).getD (1/2)
  let newTrust := (7/10) * trust + (1 - 7/10) * currentTrust
  { s with trustValues :=
      mapInsert s.trustValues node (max (1/10) (min 1 newTrust)) }

/-- Reading `m_trustValues[n]` through `operator[]`: default-inserts 0.0
for an unknown node and returns the stored value. -/
def trustOperatorIndex (tv : List (Nat × ℚ)) (node : Nat) :
    ℚ × List (Nat × ℚ) :=
  match mapLookup tv node with
  | some t => (t, tv)
  | none => (0, mapInsert tv node 0)

/-- An entry is fresh iff `now - lastUpdate < ROUTE_CACHE_TIMEOUT`. -/
def isFresh (e : RouteEntry) (now : Int) : Bool :=
  now - e.lastUpdate < ROUTE_CACHE_TIMEOUT

def freshLookup (c : List (Nat × RouteEntry)) (d : Nat) (now : Int) : Bool :=
  match mapLookup c d with
  | some e => isFresh e now
  | none => false

/-- Model of `FrtaRoutingProtocol::SendRouteReply`: reads the next hop's trust with
`operator[]` (inserting 0.0 for an unknown node) and schedules the reply
after the jitter delay. -/
def sendRouteReply (s : ProtoState) (destination nextHop : Nat)
    (jitterUs : Nat) : ProtoState × List Action :=
  let (t, tv) := trustOperatorIndex s.trustValues nextHop
  ({ s with trustValues := tv },
   [Action.scheduleReply ⟨destination, nextHop, t⟩ nextHop jitterUs])

/-- Model of `FrtaRoutingProtocol::SendRouteRequest`. -/
def sendRouteRequest (s : ProtoState) (destination localAddr : Nat)
    (now : Int) : ProtoState × List Action :=
  ({ s with
      pendingRequests := setInsert s.pendingRequests destination
      routeRequestTime := mapInsert s.routeRequestTime destination now },
   [Action.broadcastRequest ⟨destination, localAddr, 0⟩,
    Action.scheduleTimeout destination])

/-- Model of `FrtaRoutingProtocol::ProcessRouteRequest`.  `jitterUs` stands for the
value drawn from `m_random->GetInteger(0, 1000)`. -/
def processRouteRequest (s : ProtoState) (msg : RouteRequestMsg)
    (sender localAddr : Nat) (now : Int) (jitterUs : Nat) :
    ProtoState × List Action :=
  if msg.source = localAddr then (s, [])
  else
    let sourceEntry : RouteEntry :=
      ⟨sender, 7/10, now, (msg.hopCount + 1) % 2 ^ 32⟩
    let s1 := { s with routeCache := mapInsert s.routeCache msg.source sourceEntry }
    let s2 := updateTrustValue s1 sender (7/10)
    if msg.destination = localAddr then
      sendRouteReply s2 msg.source sender jitterUs
    else if freshLookup s2.routeCache msg.destination now then
      sendRouteReply s2 msg.source sender jitterUs
    else if msg.hopCount < MAX_HOP_COUNT then
      (s2, [Action.scheduleRebroadcast
             ⟨msg.destination, msg.source, (msg.hopCount + 1) % 2 ^ 32⟩ jitterUs])
    else (s2, [])

/-- Model of `FrtaRoutingProtocol::ProcessRouteReply`. -/
def processRouteReply (s : ProtoState) (msg : RouteReplyMsg)
    (sender localAddr : Nat) (now : Int) (jitterUs : Nat) :
    ProtoState × List Action :=
  let s1 := updateTrustValue s sender msg.trust
  let s2 := updateTrustValue s1 msg.nextHop msg.trust
  let entry : RouteEntry := ⟨sender, msg.trust, now, 1⟩
  let s3 := { s2 with routeCache := mapInsert s2.routeCache msg.destination entry }
  let step2 :=
    if msg.destination = localAddr then (s3, ([] : List Action))
    else
      match mapLookup s3.routeCache msg.destination with
      | some e =>
        if e.nextHop = msg.destination then (s3, [])
        else sendRouteReply s3 msg.destination e.nextHop jitterUs
      | none => (s3, [])
  ({ step2.1 with
      pendingRequests := setErase step2.1.pendingRequests msg.destination },
   step2.2)

/-- Model of `FrtaRoutingProtocol::UpdateRoute`. -/
def updateRoute (s : ProtoState) (destination nextHop : Nat) (trust : ℚ)
    (now : Int) : ProtoState :=
  let c := mapInsert s.routeCache destination ⟨nextHop, trust, now, 1⟩
  let s1 := { s with routeCache := c }
  updateTrustValue s1 nextHop trust

/-- Model of `FrtaRoutingProtocol::ProcessRouteAdvertisement`. -/
def processRouteAdvertisement (s : ProtoState) (msg : RouteAdvMsg)
    (now : Int) : ProtoState :=
  let newEntry : RouteEntry :=
    ⟨msg.nextHop, msg.trust, now, (msg.hopCount + 1) % 2 ^ 32⟩
  match mapLookup s.routeCache msg.destination with
  | none =>
    { s with routeCache := mapInsert s.routeCache msg.destination newEntry }
  | some e =>
    if msg.trust > e.trust ∧ msg.hopCount < e.hopCount then
      { s with routeCache := mapInsert s.routeCache msg.destination newEntry }
    else s

/-- Model of `FrtaRoutingProtocol::HandleRouteRequestTimeout`. -/
def handleRouteRequestTimeout (s : ProtoState) (destination : Nat) :
    ProtoState :=
  if destination ∈ s.pendingRequests then
    { s with
        pendingRequests := setErase s.pendingRequests destination
        routeRequestTime := mapErase s.routeRequestTime destination }
  else s

/-- Model of `FrtaRoutingProtocol::CleanupRoutingTable` body: drop entries with
`now - lastUpdate >= ROUTE_CACHE_TIMEOUT`. -/
def cleanupList : List (Nat × RouteEntry) → Int → List (Nat × RouteEntry)
  | [], _ => []
  | p :: rest, now =>
    if now - p.2.lastUpdate ≥ ROUTE_CACHE_TIMEOUT then cleanupList rest now
    else p :: cleanupList rest now

def cleanupRoutingTable (s : ProtoState) (now : Int) : ProtoState :=
  { s with routeCache := cleanupList s.routeCache now }

/-- The fold inside `FrtaRoutingProtocol::CalculatePathTrust`, starting
from `minTrust = 1.0` and taking 0.5 for an unknown node. -/
def calcMinTrust (tv : List (Nat × ℚ)) (path : List Nat) : ℚ :=
  path.foldl (fun m n => min m ((mapLookup tv n).getD (1/2))) 1

/-- Model of `FrtaRoutingProtocol::CalculatePathTrust`: 0.0 for the empty path; a
cached value is returned as is; otherwise the member minimum is computed
and cached. -/
def calculatePathTrust (s : ProtoState) (path : List Nat) : ℚ × ProtoState :=
  if path = [] then (0, s)
  else
    match mapLookup s.pathTrustValues path with
    | some v => (v, s)
    | none =>
      let m := calcMinTrust s.trustValues path
      (m, { s with pathTrustValues := mapInsert s.pathTrustValues path m })

/-- One node step of `FrtaRoutingProtocol::UpdatePathTrust`: `operator[]`
default-inserts 0.0, then +0.1 capped at 1.0 on success or -0.2 floored at
0.0 on failure. -/
def updatePathTrustNode (tv : List (Nat × ℚ)) (node : Nat) (success : Bool) :
    List (Nat × ℚ) :=
  let t := (mapLookup tv node).getD 0
  mapInsert tv node (if success then min 1 (t + 1/10) else max 0 (t - 1/5))

/-- Model of `FrtaRoutingProtocol::UpdatePathTrust` (the collision-detector call per
node is tracked by the separate `FrtaCollisionDetector` model). -/
def updatePathTrust (s : ProtoState) (path : List Nat) (success : Bool) :
    ProtoState :=
  if path = [] then s
  else
    let tv := path.foldl (fun acc n => updatePathTrustNode acc n success)
      s.trustValues
    let s1 := { s with trustValues := tv }
    let r := calculatePathTrust s1 path
    { r.2 with pathTrustValues := mapInsert r.2.pathTrustValues path r.1 }

/-- Model of `FrtaRoutingProtocol::DetectCollision`: unknown next hops are granted
trust 0.5; low trust or a high packet count flags a collision. -/
def detectCollision (s : ProtoState) (nextHop : Nat) : Bool × ProtoState :=
  match mapLookup s.trustValues nextHop with
  | none => (false, { s with trustValues := mapInsert s.trustValues nextHop (1/2) })
  | some t =>
    if t < 3/10 then (true, s)
    else
      match mapLookup s.packetCounts nextHop with
      | some c => if c > 200 then (true, s) else (false, s)
      | none => (false, s)

/-- One interface entry of `FrtaRoutingProtocol::InitializeRoutingTable`. -/
def initInterfaceEntry (s : ProtoState) (addr : Nat) (now : Int) : ProtoState :=
  { s with
      trustValues := mapInsert s.trustValues addr 1
      packetCounts := mapInsert s.packetCounts addr 0
      routeCache := mapInsert s.routeCache addr ⟨addr, 1, now, 0⟩
      routingTable := setInsert s.routingTable addr }

/-- Model of `FrtaRoutingProtocol::SendRoutingUpdate`: reads `m_trustValues[a]` via
`operator[]` for every routing-table key. -/
def sendRoutingUpdate (s : ProtoState) : ProtoState :=
  let tv :=
    s.routingTable.foldl (fun tv a => (trustOperatorIndex tv a).2) s.trustValues
  { s with trustValues := tv }

def BROADCAST : Nat := 4294967295

inductive SockErr
  | notError
  | noRouteToHost
deriving DecidableEq

structure Ipv4Route where
  destination : Nat
  gateway : Nat
  source : Nat
deriving DecidableEq

structure RouteOutputResult where
  route : Option Ipv4Route
  sockerr : Option SockErr
  state : ProtoState
  actions : List Action
deriving DecidableEq

/-- Discovery tail of `FrtaRoutingProtocol::RouteOutput`: no usable cache
entry, so issue a request unless one is pending and report no-route. -/
def routeOutputDiscover (s : ProtoState) (destination localAddr : Nat)
    (now : Int) : RouteOutputResult :=
  if destination ∈ s.pendingRequests then
    ⟨none, some .noRouteToHost, s, []⟩
  else
    let r := sendRouteRequest s destination localAddr now
    ⟨none, some .noRouteToHost, r.1, r.2⟩

/-- Model of `FrtaRoutingProtocol::RouteOutput`. -/
def routeOutput (s : ProtoState) (destination localAddr : Nat) (now : Int) :
    RouteOutputResult :=
  if destination = BROADCAST then
    ⟨some ⟨destination, 0, localAddr⟩, none, s, []⟩
  else
    match mapLookup s.routeCache destination with
    | some e =>
      if isFresh e now then
        ⟨some ⟨destination, e.nextHop, localAddr⟩, some .notError, s, []⟩
      else routeOutputDiscover s destination localAddr now
    | none => routeOutputDiscover s destination localAddr now

/-- Every protocol-state transition of the source: message receipts, the
route-reply and route-request send paths, path-trust updates, and timer
callbacks. -/
inductive Event
  | evUpdateTrust (node : Nat) (trust : ℚ)
  | evUpdatePathTrust (path : List Nat) (success : Bool)
  | evSendRouteReply (destination nextHop : Nat) (jitterUs : Nat)
  | evSendRouteRequest (destination localAddr : Nat) (now : Int)
  | evProcessRouteRequest (msg : RouteRequestMsg) (sender localAddr : Nat)
      (now : Int) (jitterUs : Nat)
  | evProcessRouteReply (msg : RouteReplyMsg) (sender localAddr : Nat)
      (now : Int) (jitterUs : Nat)
  | evProcessRouteAdvertisement (msg : RouteAdvMsg) (now : Int)
  | evReceiveTrustUpdate (sender : Nat) (trust : ℚ)
  | evRouteOutput (destination localAddr : Nat) (now : Int)
  | evRouteRequestTimeout (destination : Nat)
  | evCleanup (now : Int)
  | evCalculatePathTrust (path : List Nat)
  | evDetectCollision (nextHop : Nat)
  | evInitInterface (addr : Nat) (now : Int)
  | evSendRoutingUpdate
  | evUpdateRoute (destination nextHop : Nat) (trust : ℚ) (now : Int)
deriving DecidableEq

def step (s : ProtoState) : Event → ProtoState
  | .evUpdateTrust n t => updateTrustValue s n t
  | .evUpdatePathTrust p ok => updatePathTrust s p ok
  | .evSendRouteReply d nh j => (sendRouteReply s d nh j).1
  | .evSendRouteRequest d loc now => (sendRouteRequest s d loc now).1
  | .evProcessRouteRequest m snd loc now j =>
      (processRouteRequest s m snd loc now j).1
  | .evProcessRouteReply m snd loc now j =>
      (processRouteReply s m snd loc now j).1
  | .evProcessRouteAdvertisement m now => processRouteAdvertisement s m now
  | .evReceiveTrustUpdate snd t => updateTrustValue s snd t
  | .evRouteOutput d loc now => (routeOutput s d loc now).state
  | .evRouteRequestTimeout d => handleRouteRequestTimeout s d
  | .evCleanup now => cleanupRoutingTable s now
  | .evCalculatePathTrust p => (calculatePathTrust s p).2
  | .evDetectCollision nh => (detectCollision s nh).2
  | .evInitInterface a now => initInterfaceEntry s a now
  | .evSendRoutingUpdate => sendRoutingUpdate s
  | .evUpdateRoute d nh t now => updateRoute s d nh t now

/-- A reachable state: the fold of `step` over an event trace from the
freshly constructed protocol instance. -/
def run (evs : List Event) : ProtoState :=
  evs.foldl step initState

/-- Invariant of the collision detector cache: whenever the validity flag
is up, the cached value agrees with the success-ratio formula. -/
def cdInv (d : FrtaCollisionDetector) : Prop :=
  d.cacheValid = true →
    d.collisionProbabilityCache =
      if d.totalCount = 0 then 0
      else 1 - (d.successCount : ℚ) / (d.totalCount : ℚ)

/-- All stored trust values lie in [0, 1]. -/
def TrustBounds (tv : List (Nat × ℚ)) : Prop :=
  ∀ p ∈ tv, 0 ≤ p.2 ∧ p.2 ≤ 1

/-! ## Basic lemmas about the container model -/

theorem readU32_u32be (x : Nat) (rest : List Nat) (h : x < 2 ^ 32) :
    readU32 (u32be x ++ rest) = (x, rest) := by
  simp only [u32be, List.cons_append, List.nil_append, readU32, Prod.mk.injEq]
  exact ⟨by omega, trivial⟩

theorem readU64_u64be (x : Nat) (rest : List Nat) (h : x < 2 ^ 64) :
    readU64 (u64be x ++ rest) = (x, rest) := by
  have hhi : x / 2 ^ 32 < 2 ^ 32 := by omega
  have hlo : x % 2 ^ 32 < 2 ^ 32 := Nat.mod_lt _ (by norm_num)
  simp only [u64be, readU64, List.append_assoc,
    readU32_u32be _ _ hhi, readU32_u32be _ _ hlo, Prod.mk.injEq]
  exact ⟨by omega, trivial⟩

theorem mapLookup_insert_self {α β : Type} [DecidableEq α]
    (m : List (α × β)) (k : α) (v : β) :
    mapLookup (mapInsert m k v) k = some v := by
  simp [mapInsert, mapLookup]

theorem mapLookup_erase {α β : Type} [DecidableEq α]
    (m : List (α × β)) (k k' : α) (h : k ≠ k') :
    mapLookup (mapErase m k) k' = mapLookup m k' := by
  induction m with
  | nil => rfl
  | cons p rest ih =>
    by_cases hp : p.1 = k
    · have hne : ¬ p.1 = k' := by
        intro hk'; exact h (hp ▸ hk')
      simp [mapErase, hp, mapLookup, hne, ih, h]
    · cases p with
      | mk a b => simp only [mapErase, hp, if_neg hp, mapLookup]; rw [ih]

theorem mapLookup_insert_ne {α β : Type} [DecidableEq α]
    (m : List (α × β)) (k k' : α) (v : β) (h : k ≠ k') :
    mapLookup (mapInsert m k v) k' = mapLookup m k' := by
  simp [mapInsert, mapLookup, h, mapLookup_erase m k k' h]

theorem mapLookup_mem {α β : Type} [DecidableEq α]
    {m : List (α × β)} {k : α} {v : β} (h : mapLookup m k = some v) :
    (k, v) ∈ m := by
  induction m with
  | nil => simp [mapLookup] at h
  | cons p rest ih =>
    by_cases hp : p.1 = k
    · simp only [mapLookup, if_pos hp] at h
      obtain ⟨a, b⟩ := p
      simp only at hp
      injection h with h
      subst hp; subst h
      exact List.mem_cons_self _ _
    · simp only [mapLookup, if_neg hp] at h
      exact List.mem_cons_of_mem _ (ih h)

theorem mem_mapErase {α β : Type} [DecidableEq α]
    {m : List (α × β)} {k : α} {p : α × β} (h : p ∈ mapErase m k) : p ∈ m := by
  induction m with
  | nil => simp [mapErase] at h
  | cons q rest ih =>
    by_cases hq : q.1 = k
    · simp only [mapErase, if_pos hq] at h
      exact List.mem_cons_of_mem _ (ih h)
    · simp only [mapErase, if_neg hq] at h
      rw [List.mem_cons] at h
      rcases h with h | h
      · exact h ▸ List.mem_cons_self q rest
      · exact List.mem_cons_of_mem _ (ih h)

theorem not_mem_setErase (l : List Nat) (x : Nat) : x ∉ setErase l x := by
  induction l with
  | nil => simp [setErase]
  | cons y rest ih =>
    by_cases hy : y = x
    · simpa [setErase, hy] using ih
    · simp [setErase, hy, ih, Ne.symm hy]

/-! ## Codec round trips -/

theorem routeRequestDeserialize_serialize (h : RouteRequestHeader)
    (hd : h.destination < 2 ^ 32) (hs : h.source < 2 ^ 32)
    (hh : h.hopCount < 2 ^ 32) :
    routeRequestDeserialize (routeRequestSerialize h) = h := by
  have h1 : readU32 (u32be h.destination ++ (u32be h.source ++ u32be h.hopCount)) =
      (h.destination, u32be h.source ++ u32be h.hopCount) := readU32_u32be _ _ hd
  have h2 : readU32 (u32be h.source ++ u32be h.hopCount) =
      (h.source, u32be h.hopCount) := readU32_u32be _ _ hs
  have h3 : readU32 (u32be h.hopCount) = (h.hopCount, []) := by
    simpa using readU32_u32be h.hopCount [] hh
  simp [routeRequestSerialize, routeRequestDeserialize, List.append_assoc,
    h1, h2, h3]

theorem routeReplyDeserialize_serialize (h : RouteReplyHeader)
    (hd : h.destination < 2 ^ 32) (hn : h.nextHop < 2 ^ 32)
    (ht : h.trustBits < 2 ^ 64) :
    routeReplyDeserialize (routeReplySerialize h) = h := by
  have h1 : readU32 (u32be h.destination ++ (u32be h.nextHop ++ u64be h.trustBits)) =
      (h.destination, u32be h.nextHop ++ u64be h.trustBits) := readU32_u32be _ _ hd
  have h2 : readU32 (u32be h.nextHop ++ u64be h.trustBits) =
      (h.nextHop, u64be h.trustBits) := readU32_u32be _ _ hn
  have h3 : readU64 (u64be h.trustBits) = (h.trustBits, []) := by
    simpa using readU64_u64be h.trustBits [] ht
  simp [routeReplySerialize, routeReplyDeserialize, List.append_assoc,
    h1, h2, h3]

theorem routeAdvertisementDeserialize_serialize (h : RouteAdvertisementHeader)
    (hd : h.destination < 2 ^ 32) (hn : h.nextHop < 2 ^ 32)
    (ht : h.trustBits < 2 ^ 64) (hh : h.hopCount < 2 ^ 32) :
    routeAdvertisementDeserialize (routeAdvertisementSerialize h) = h := by
  have h1 : readU32 (u32be h.destination ++
      (u32be h.nextHop ++ (u64be h.trustBits ++ u32be h.hopCount))) =
      (h.destination, u32be h.nextHop ++ (u64be h.trustBits ++ u32be h.hopCount)) :=
    readU32_u32be _ _ hd
  have h2 : readU32 (u32be h.nextHop ++ (u64be h.trustBits ++ u32be h.hopCount)) =
      (h.nextHop, u64be h.trustBits ++ u32be h.hopCount) := readU32_u32be _ _ hn
  have h3 : readU64 (u64be h.trustBits ++ u32be h.hopCount) =
      (h.trustBits, u32be h.hopCount) := readU64_u64be _ _ ht
  have h4 : readU32 (u32be h.hopCount) = (h.hopCount, []) := by
    simpa using readU32_u32be h.hopCount [] hh
  simp [routeAdvertisementSerialize, routeAdvertisementDeserialize,
    List.append_assoc, h1, h2, h3, h4]

theorem frtaHeaderDeserialize_serialize (h : FrtaHeader)
    (h1 : 1 ≤ h.msgType) (h4 : h.msgType ≤ 4) :
    frtaHeaderDeserialize (frtaHeaderSerialize h) = h := by
  have hm : h.msgType % 256 = h.msgType := Nat.mod_eq_of_lt (by omega)
  simp only [frtaHeaderSerialize, frtaHeaderDeserialize, List.headD, hm]
  rw [if_pos ⟨h1, h4⟩]

/-! ## Claim theorems: wire format -/

/-- Claim C5.  The claim states that `GetSerializedSize` of the request,
reply and advertisement headers reports the size of the serialized body,
namely 12, 16 and 20 bytes.  The bodies do occupy 12, 16 and 20 bytes, but
the source's `GetSerializedSize` implementations return 20, 24 and 28
(they size the two IPv4 addresses at 8 bytes each, contradicting both
their own comments and the ns-3 `Header` contract).  This theorem records
the divergence at the failing inputs. -/
theorem claim_C5_sizes :
    (routeRequestSerialize ⟨0, 0, 0⟩).length = 12 ∧
    routeRequestGetSerializedSize = 20 ∧
    (routeReplySerialize ⟨0, 0, 0⟩).length = 16 ∧
    routeReplyGetSerializedSize = 24 ∧
    (routeAdvertisementSerialize ⟨0, 0, 0, 0⟩).length = 20 ∧
    routeAdvertisementGetSerializedSize = 28 := by
  refine ⟨?_, rfl, ?_, rfl, ?_, rfl⟩ <;> rfl

/-- Claim C6: for every message variant and every field value in its
domain, deserialising the serialised bytes yields the original header,
the trust double round-tripping by its 64-bit pattern. -/
theorem claim_C6_roundtrip (f : FrtaHeader) (rq : RouteRequestHeader)
    (rp : RouteReplyHeader) (ad : RouteAdvertisementHeader)
    (hf : 1 ≤ f.msgType ∧ f.msgType ≤ 4)
    (hrq : rq.destination < 2 ^ 32 ∧ rq.source < 2 ^ 32 ∧ rq.hopCount < 2 ^ 32)
    (hrp : rp.destination < 2 ^ 32 ∧ rp.nextHop < 2 ^ 32 ∧ rp.trustBits < 2 ^ 64)
    (had : ad.destination < 2 ^ 32 ∧ ad.nextHop < 2 ^ 32 ∧
      ad.trustBits < 2 ^ 64 ∧ ad.hopCount < 2 ^ 32) :
    frtaHeaderDeserialize (frtaHeaderSerialize f) = f ∧
    routeRequestDeserialize (routeRequestSerialize rq) = rq ∧
    routeReplyDeserialize (routeReplySerialize rp) = rp ∧
    routeAdvertisementDeserialize (routeAdvertisementSerialize ad) = ad :=
  ⟨frtaHeaderDeserialize_serialize f hf.1 hf.2,
   routeRequestDeserialize_serialize rq hrq.1 hrq.2.1 hrq.2.2,
   routeReplyDeserialize_serialize rp hrp.1 hrp.2.1 hrp.2.2,
   routeAdvertisementDeserialize_serialize ad had.1 had.2.1 had.2.2.1 had.2.2.2⟩

/-- Witness for C6 at concrete field values (trust bits are the IEEE-754
pattern of 0.9). -/
theorem claim_C6_witness :
    frtaHeaderDeserialize (frtaHeaderSerialize ⟨2⟩) = ⟨2⟩ ∧
    routeRequestDeserialize (routeRequestSerialize ⟨167837955, 167837953, 3⟩) =
      ⟨167837955, 167837953, 3⟩ ∧
    routeReplyDeserialize (routeReplySerialize
      ⟨167837955, 167837954, 4606281698874543309⟩) =
      ⟨167837955, 167837954, 4606281698874543309⟩ ∧
    routeAdvertisementDeserialize (routeAdvertisementSerialize
      ⟨167837955, 167837954, 4606281698874543309, 4⟩) =
      ⟨167837955, 167837954, 4606281698874543309, 4⟩ :=
  claim_C6_roundtrip ⟨2⟩ ⟨167837955, 167837953, 3⟩
    ⟨167837955, 167837954, 4606281698874543309⟩
    ⟨167837955, 167837954, 4606281698874543309, 4⟩
    (by decide) (by decide) (by decide) (by decide)

/-- Claim C10: every decoded `FrtaHeader` carries a message type in 1..4
(a tag byte outside that range is coerced to REQUEST = 1), so the
unknown-type dispatch branch of `ReceiveRoutingPacket` is unreachable and
no received message is rejected for its tag value. -/
theorem claim_C10_decodedTagValid (b : List Nat) :
    (1 ≤ (frtaHeaderDeserialize b).msgType ∧
      (frtaHeaderDeserialize b).msgType ≤ 4) ∧
    receiveDispatch (frtaHeaderDeserialize b).msgType ≠ DispatchCase.unknown ∧
    (¬ (1 ≤ b.headD 0 ∧ b.headD 0 ≤ 4) →
      (frtaHeaderDeserialize b).msgType = 1) := by
  by_cases h : 1 ≤ b.headD 0 ∧ b.headD 0 ≤ 4
  · simp only [frtaHeaderDeserialize, if_pos h]
    refine ⟨⟨h.1, h.2⟩, ?_, fun hn => absurd h hn⟩
    obtain ⟨h1, h4⟩ := h
    unfold receiveDispatch
    have : b.headD 0 = 1 ∨ b.headD 0 = 2 ∨ b.headD 0 = 3 ∨ b.headD 0 = 4 := by
      omega
    rcases this with h' | h' | h' | h' <;> rw [h'] <;> simp
  · simp only [frtaHeaderDeserialize, if_neg h]
    exact ⟨⟨le_refl 1, by norm_num⟩, by simp [receiveDispatch], fun _ => trivial⟩

/-- Witness for C10 on the out-of-range tag byte 200. -/
theorem claim_C10_witness :
    ((1 ≤ (frtaHeaderDeserialize [200]).msgType ∧
      (frtaHeaderDeserialize [200]).msgType ≤ 4) ∧
     receiveDispatch (frtaHeaderDeserialize [200]).msgType ≠
       DispatchCase.unknown ∧
     (frtaHeaderDeserialize [200]).msgType = 1) :=
  ⟨(claim_C10_decodedTagValid [200]).1, (claim_C10_decodedTagValid [200]).2.1,
   (claim_C10_decodedTagValid [200]).2.2 (by decide)⟩


/-! ## Claim C9: collision-probability cache -/

theorem cdInv_step (d : FrtaCollisionDetector) (e : CdEvent) (h : cdInv d) :
    cdInv (cdStep d e) := by
  cases e with
  | update s ok now =>
    intro hv
    simp [cdStep, updateTransmissionStats] at hv
  | query =>
    intro hv
    unfold cdStep getCollisionProbability
    by_cases hc : d.cacheValid = true
    · simp only [hc, if_pos]
      exact h hc
    · simp [hc]

theorem cdInv_foldl (evs : List CdEvent) (d : FrtaCollisionDetector)
    (h : cdInv d) : cdInv (evs.foldl cdStep d) := by
  induction evs generalizing d with
  | nil => exact h
  | cons e rest ih => exact ih (cdStep d e) (cdInv_step d e h)

theorem cdInv_run (evs : List CdEvent) : cdInv (cdRun evs) :=
  cdInv_foldl evs initCollisionDetector (by intro hv; simp [initCollisionDetector] at hv)

/-- Claim C9: after any sequence of `UpdateTransmissionStats` calls (and
interleaved queries), `GetCollisionProbability` returns exactly 0 when
`m_totalCount` is 0 and `1 - m_successCount / m_totalCount` otherwise: the
lazily cached value always agrees with recomputing the formula, because
every update lowers the validity flag. -/
theorem claim_C9_globalProbability (evs : List CdEvent) :
    (getCollisionProbability (cdRun evs)).1 =
      if (cdRun evs).totalCount = 0 then 0
      else 1 - ((cdRun evs).successCount : ℚ) / ((cdRun evs).totalCount : ℚ) := by
  have h := cdInv_run evs
  unfold getCollisionProbability
  by_cases hc : (cdRun evs).cacheValid = true
  · simp only [hc, if_pos]
    exact h hc
  · simp [hc]

/-! ## Claim C2: advertisement replacement rule -/

/-- Claim C2: `ProcessRouteAdvertisement` replaces the cache entry for
`msg.destination` iff no entry exists or the advertisement is strictly
better on both axes (`msg.trust > existing.trust` and
`msg.hopCount < existing.hopCount`); the stored entry then carries
`msg.nextHop`, `msg.trust`, hop count `msg.hopCount + 1` (u32 arithmetic)
and `lastUpdate = now`; otherwise the state is unchanged. -/
theorem claim_C2_advReplacement (s : ProtoState) (msg : RouteAdvMsg)
    (now : Int) :
    ((mapLookup s.routeCache msg.destination = none ∨
      (∃ e, mapLookup s.routeCache msg.destination = some e ∧
        msg.trust > e.trust ∧ msg.hopCount < e.hopCount)) →
      (processRouteAdvertisement s msg now).routeCache =
        mapInsert s.routeCache msg.destination
          ⟨msg.nextHop, msg.trust, now, (msg.hopCount + 1) % 2 ^ 32⟩ ∧
      mapLookup (processRouteAdvertisement s msg now).routeCache
          msg.destination =
        some ⟨msg.nextHop, msg.trust, now, (msg.hopCount + 1) % 2 ^ 32⟩) ∧
    (¬ (mapLookup s.routeCache msg.destination = none ∨
      (∃ e, mapLookup s.routeCache msg.destination = some e ∧
        msg.trust > e.trust ∧ msg.hopCount < e.hopCount)) →
      processRouteAdvertisement s msg now = s) := by
  constructor
  · intro hrep
    have hins : (processRouteAdvertisement s msg now).routeCache =
        mapInsert s.routeCache msg.destination
          ⟨msg.nextHop, msg.trust, now, (msg.hopCount + 1) % 2 ^ 32⟩ := by
      rcases hrep with h0 | ⟨e, he, hc⟩
      · simp only [processRouteAdvertisement, h0]
      · simp only [processRouteAdvertisement, he, if_pos hc]
    exact ⟨hins, by rw [hins]; exact mapLookup_insert_self _ _ _⟩
  · intro hn
    cases hl : mapLookup s.routeCache msg.destination with
    | none => exact absurd (Or.inl hl) hn
    | some e =>
      have hc : ¬ (msg.trust > e.trust ∧ msg.hopCount < e.hopCount) :=
        fun hc => hn (Or.inr ⟨e, hl, hc⟩)
      simp only [processRouteAdvertisement, hl, if_neg hc]

/-- Witness for C2, the concrete replacement scenario of the spec: an
entry with trust 0.6 and hop count 3 is replaced by an advertisement with
trust 0.7 and hop count 1, and is kept against one with hop count 3. -/
theorem claim_C2_witness :
    mapLookup (processRouteAdvertisement
        ⟨[(9, ⟨1, 6/10, 0, 3⟩)], [], [], [], [], [], []⟩
        ⟨9, 2, 7/10, 1⟩ 5).routeCache 9 = some ⟨2, 7/10, 5, 2⟩ ∧
    processRouteAdvertisement
        ⟨[(9, ⟨1, 6/10, 0, 3⟩)], [], [], [], [], [], []⟩
        ⟨9, 2, 7/10, 3⟩ 5 =
      ⟨[(9, ⟨1, 6/10, 0, 3⟩)], [], [], [], [], [], []⟩ := by
  constructor
  · have h := (claim_C2_advReplacement
        ⟨[(9, ⟨1, 6/10, 0, 3⟩)], [], [], [], [], [], []⟩
        ⟨9, 2, 7/10, 1⟩ 5).1
      (Or.inr ⟨⟨1, 6/10, 0, 3⟩, by norm_num [mapLookup], by norm_num, by norm_num⟩)
    simpa using h.2
  · exact (claim_C2_advReplacement
        ⟨[(9, ⟨1, 6/10, 0, 3⟩)], [], [], [], [], [], []⟩
        ⟨9, 2, 7/10, 3⟩ 5).2
      (by
        rintro (h0 | ⟨e2, he2, hgt, hhop⟩)
        · simp [mapLookup] at h0
        · rw [show mapLookup
              (⟨[(9, ⟨1, 6/10, 0, 3⟩)], [], [], [], [], [], []⟩ :
                ProtoState).routeCache 9 = some ⟨1, 6/10, 0, 3⟩ by
              norm_num [mapLookup]] at he2
          injection he2 with he2
          rw [← he2] at hhop
          simp at hhop)

/-! ## Claim C4: route-reply installation -/

/-- Claim C4: after `ProcessRouteReply(msg, sender)` the route cache maps
`msg.destination` to `{nextHop = sender, trust = msg.trust, hopCount = 1,
lastUpdate = now}` and `msg.destination` is no longer pending. -/
theorem claim_C4_replyInstallsRoute (s : ProtoState) (msg : RouteReplyMsg)
    (sender localAddr : Nat) (now : Int) (jitterUs : Nat) :
    mapLookup ((processRouteReply s msg sender localAddr now
        jitterUs).1).routeCache msg.destination =
      some ⟨sender, msg.trust, now, 1⟩ ∧
    msg.destination ∉
      ((processRouteReply s msg sender localAddr now
        jitterUs).1).pendingRequests := by
  by_cases hd : msg.destination = localAddr
  · simp [processRouteReply, hd, mapLookup_insert_self, not_mem_setErase,
      updateTrustValue]
  · by_cases hs : sender = msg.destination
    · simp [processRouteReply, hd, hs, mapLookup_insert_self,
        not_mem_setErase, updateTrustValue]
    · simp [processRouteReply, hd, hs, mapLookup_insert_self,
        not_mem_setErase, updateTrustValue, sendRouteReply,
        trustOperatorIndex]

/-! ## Claim C7: outbound route lookup -/

/-- Claim C7: for a non-broadcast destination, `RouteOutput` returns a
route with gateway equal to the cached next hop when a fresh entry exists;
otherwise it returns the null route with `ERROR_NOROUTETOHOST` and issues
a route request exactly when none is pending for the destination. -/
theorem claim_C7_routeOutput (s : ProtoState) (destination localAddr : Nat)
    (now : Int) (hb : destination ≠ BROADCAST) :
    (∀ e, mapLookup s.routeCache destination = some e → isFresh e now = true →
      routeOutput s destination localAddr now =
        ⟨some ⟨destination, e.nextHop, localAddr⟩, some SockErr.notError,
         s, []⟩) ∧
    ((mapLookup s.routeCache destination = none ∨
      (∃ e, mapLookup s.routeCache destination = some e ∧
        isFresh e now = false)) →
      (routeOutput s destination localAddr now).route = none ∧
      (routeOutput s destination localAddr now).sockerr =
        some SockErr.noRouteToHost ∧
      (Action.broadcastRequest ⟨destination, localAddr, 0⟩ ∈
          (routeOutput s destination localAddr now).actions ↔
        destination ∉ s.pendingRequests)) := by
  constructor
  · intro e he hf
    simp [routeOutput, hb, he, hf]
  · intro hmiss
    have hdis : routeOutput s destination localAddr now =
        routeOutputDiscover s destination localAddr now := by
      rcases hmiss with h0 | ⟨e, he, hf⟩
      · simp [routeOutput, hb, h0]
      · simp [routeOutput, hb, he, hf]
    rw [hdis]
    unfold routeOutputDiscover
    by_cases hp : destination ∈ s.pendingRequests
    · simp [hp]
    · simp [hp, sendRouteRequest]

/-- Witness for C7: empty cache, nothing pending, so the lookup reports
no-route and issues a request. -/
theorem claim_C7_witness :
    (routeOutput initState 7 1 0).route = none ∧
    (routeOutput initState 7 1 0).sockerr = some SockErr.noRouteToHost ∧
    (Action.broadcastRequest ⟨7, 1, 0⟩ ∈ (routeOutput initState 7 1 0).actions ↔
      7 ∉ initState.pendingRequests) :=
  (claim_C7_routeOutput initState 7 1 0 (by decide)).2 (Or.inl rfl)

/-! ## Claim C8: hop limit and rebroadcast -/

/-- Claim C8: a route request processed by a node that is neither its
source nor its destination and (after installing the reverse route) has no
fresh cached route to the destination is never rebroadcast when
`msg.hopCount >= MAX_HOP_COUNT = 10`, and with `msg.hopCount < 10` it is
rebroadcast exactly once with the hop count incremented by 1 after the
uniform jitter delay in [0, 1000] microseconds. -/
theorem claim_C8_hopLimitRebroadcast (s : ProtoState) (msg : RouteRequestMsg)
    (sender localAddr : Nat) (now : Int) (jitterUs : Nat)
    (hsrc : msg.source ≠ localAddr) (hdst : msg.destination ≠ localAddr)
    (hnf : freshLookup
      (mapInsert s.routeCache msg.source
        ⟨sender, 7/10, now, (msg.hopCount + 1) % 2 ^ 32⟩)
      msg.destination now = false)
    (hj : jitterUs ≤ 1000) :
    (MAX_HOP_COUNT ≤ msg.hopCount →
      (processRouteRequest s msg sender localAddr now jitterUs).2 = []) ∧
    (msg.hopCount < MAX_HOP_COUNT →
      (processRouteRequest s msg sender localAddr now jitterUs).2 =
        [Action.scheduleRebroadcast
          ⟨msg.destination, msg.source, msg.hopCount + 1⟩ jitterUs] ∧
      jitterUs ≤ 1000) := by
  rw [show (2 : Nat) ^ 32 = 4294967296 from by norm_num] at hnf
  constructor
  · intro hge
    have hnlt : ¬ msg.hopCount < MAX_HOP_COUNT := by omega
    simp [processRouteRequest, hsrc, hdst, hnf, hnlt, updateTrustValue]
  · intro hlt
    have hmod : (msg.hopCount + 1) % 4294967296 = msg.hopCount + 1 :=
      Nat.mod_eq_of_lt (by
        have h10 : MAX_HOP_COUNT = 10 := rfl
        omega)
    rw [hmod] at hnf
    refine ⟨?_, hj⟩
    simp [processRouteRequest, hsrc, hdst, hnf, hlt, hmod, updateTrustValue]

/-- Witness for C8: hop count 4 under the limit, so the request is
rebroadcast once with hop count 5 after the given 500 microsecond jitter. -/
theorem claim_C8_witness :
    (processRouteRequest initState ⟨3, 2, 4⟩ 2 1 0 500).2 =
      [Action.scheduleRebroadcast ⟨3, 2, 5⟩ 500] ∧ (500 : Nat) ≤ 1000 :=
  (claim_C8_hopLimitRebroadcast initState ⟨3, 2, 4⟩ 2 1 0 500
    (by decide) (by decide) rfl (by decide)).2 (by decide)

/-! ## Trust-value bounds through every transition -/

theorem trustBounds_insert {tv : List (Nat × ℚ)} {v : ℚ}
    (h : TrustBounds tv) (h0 : 0 ≤ v) (h1 : v ≤ 1) (n : Nat) :
    TrustBounds (mapInsert tv n v) := by
  intro p hp
  simp only [mapInsert, List.mem_cons] at hp
  rcases hp with rfl | hp'
  · exact ⟨h0, h1⟩
  · exact h p (mem_mapErase hp')

theorem trustBounds_lookup {tv : List (Nat × ℚ)} (h : TrustBounds tv)
    {n : Nat} {t : ℚ} (hl : mapLookup tv n = some t) : 0 ≤ t ∧ t ≤ 1 :=
  h (n, t) (mapLookup_mem hl)

theorem trustBounds_getD {tv : List (Nat × ℚ)} (h : TrustBounds tv)
    (n : Nat) {q : ℚ} (h0 : 0 ≤ q) (h1 : q ≤ 1) :
    0 ≤ (mapLookup tv n).getD q ∧ (mapLookup tv n).getD q ≤ 1 := by
  cases hl : mapLookup tv n with
  | none => simpa using ⟨h0, h1⟩
  | some t => simpa using trustBounds_lookup h hl

theorem trustBounds_updateTrustValue {s : ProtoState}
    (h : TrustBounds s.trustValues) (n : Nat) (t : ℚ) :
    TrustBounds (updateTrustValue s n t).trustValues := by
  apply trustBounds_insert h
  · exact le_trans (by norm_num) (le_max_left (1/10 : ℚ) _)
  · exact max_le (by norm_num) (min_le_left _ _)

theorem trustBounds_trustOperatorIndex {tv : List (Nat × ℚ)}
    (h : TrustBounds tv) (n : Nat) :
    TrustBounds (trustOperatorIndex tv n).2 := by
  unfold trustOperatorIndex
  cases hl : mapLookup tv n with
  | some t => exact h
  | none => exact trustBounds_insert h (le_refl 0) (by norm_num) n

theorem trustBounds_updatePathTrustNode {tv : List (Nat × ℚ)}
    (h : TrustBounds tv) (n : Nat) (ok : Bool) :
    TrustBounds (updatePathTrustNode tv n ok) := by
  obtain ⟨h0, h1⟩ := trustBounds_getD h n (le_refl (0:ℚ)) (by norm_num)
  cases ok with
  | true =>
    exact trustBounds_insert h
      (le_min (by norm_num) (by linarith)) (min_le_left _ _) n
  | false =>
    exact trustBounds_insert h
      (le_max_left _ _) (max_le (by norm_num) (by linarith)) n

theorem trustBounds_foldPathNodes (path : List Nat) (ok : Bool) :
    ∀ tv, TrustBounds tv →
      TrustBounds (path.foldl (fun acc n => updatePathTrustNode acc n ok) tv) := by
  induction path with
  | nil => exact fun tv h => h
  | cons n rest ih =>
    exact fun tv h => ih _ (trustBounds_updatePathTrustNode h n ok)

theorem trustBounds_foldOperatorIndex (l : List Nat) :
    ∀ tv, TrustBounds tv →
      TrustBounds (l.foldl (fun tv a => (trustOperatorIndex tv a).2) tv) := by
  induction l with
  | nil => exact fun tv h => h
  | cons a rest ih =>
    exact fun tv h => ih _ (trustBounds_trustOperatorIndex h a)

theorem trustBounds_sendRouteReply {s : ProtoState}
    (h : TrustBounds s.trustValues) (d nh j : Nat) :
    TrustBounds ((sendRouteReply s d nh j).1).trustValues := by
  have he : ((sendRouteReply s d nh j).1).trustValues =
      (trustOperatorIndex s.trustValues nh).2 := rfl
  rw [he]
  exact trustBounds_trustOperatorIndex h nh

theorem trustBounds_calculatePathTrust {s : ProtoState}
    (h : TrustBounds s.trustValues) (p : List Nat) :
    TrustBounds ((calculatePathTrust s p).2).trustValues := by
  unfold calculatePathTrust
  split
  · exact h
  · split
    · exact h
    · exact h

theorem trustBounds_updatePathTrust {s : ProtoState}
    (h : TrustBounds s.trustValues) (p : List Nat) (ok : Bool) :
    TrustBounds (updatePathTrust s p ok).trustValues := by
  unfold updatePathTrust
  split
  · exact h
  · exact trustBounds_calculatePathTrust
      (trustBounds_foldPathNodes p ok s.trustValues h) p

theorem trustBounds_processRouteRequest {s : ProtoState}
    (h : TrustBounds s.trustValues) (msg : RouteRequestMsg)
    (sender localAddr : Nat) (now : Int) (j : Nat) :
    TrustBounds ((processRouteRequest s msg sender localAddr now j).1).trustValues := by
  simp only [processRouteRequest]
  split
  · exact h
  · split
    · apply trustBounds_sendRouteReply
      exact trustBounds_updateTrustValue h sender (7/10)
    · split
      · apply trustBounds_sendRouteReply
        exact trustBounds_updateTrustValue h sender (7/10)
      · split
        · exact trustBounds_updateTrustValue h sender (7/10)
        · exact trustBounds_updateTrustValue h sender (7/10)

theorem trustBounds_processRouteReply {s : ProtoState}
    (h : TrustBounds s.trustValues) (msg : RouteReplyMsg)
    (sender localAddr : Nat) (now : Int) (j : Nat) :
    TrustBounds ((processRouteReply s msg sender localAddr now j).1).trustValues := by
  have h2 := trustBounds_updateTrustValue
    (trustBounds_updateTrustValue h sender msg.trust) msg.nextHop msg.trust
  simp only [processRouteReply]
  split
  · exact h2
  · split
    · split
      · exact h2
      · apply trustBounds_sendRouteReply
        exact h2
    · exact h2

theorem trustBounds_processRouteAdvertisement {s : ProtoState}
    (h : TrustBounds s.trustValues) (msg : RouteAdvMsg) (now : Int) :
    TrustBounds (processRouteAdvertisement s msg now).trustValues := by
  unfold processRouteAdvertisement
  split
  · exact h
  · split
    · exact h
    · exact h

theorem trustBounds_routeOutput {s : ProtoState}
    (h : TrustBounds s.trustValues) (d loc : Nat) (now : Int) :
    TrustBounds ((routeOutput s d loc now).state).trustValues := by
  unfold routeOutput routeOutputDiscover sendRouteRequest
  split
  · exact h
  · split
    · split
      · exact h
      · split
        · exact h
        · exact h
    · split
      · exact h
      · exact h

theorem trustBounds_detectCollision {s : ProtoState}
    (h : TrustBounds s.trustValues) (nh : Nat) :
    TrustBounds ((detectCollision s nh).2).trustValues := by
  unfold detectCollision
  split
  · exact trustBounds_insert h (by norm_num) (by norm_num) nh
  · split
    · exact h
    · split
      · split
        · exact h
        · exact h
      · exact h

theorem trustBounds_step (s : ProtoState) (e : Event)
    (h : TrustBounds s.trustValues) : TrustBounds (step s e).trustValues := by
  cases e with
  | evUpdateTrust n t => exact trustBounds_updateTrustValue h n t
  | evUpdatePathTrust p ok => exact trustBounds_updatePathTrust h p ok
  | evSendRouteReply d nh j => exact trustBounds_sendRouteReply h d nh j
  | evSendRouteRequest d loc now => exact h
  | evProcessRouteRequest m snd loc now j =>
    exact trustBounds_processRouteRequest h m snd loc now j
  | evProcessRouteReply m snd loc now j =>
    exact trustBounds_processRouteReply h m snd loc now j
  | evProcessRouteAdvertisement m now =>
    exact trustBounds_processRouteAdvertisement h m now
  | evReceiveTrustUpdate snd t => exact trustBounds_updateTrustValue h snd t
  | evRouteOutput d loc now => exact trustBounds_routeOutput h d loc now
  | evRouteRequestTimeout d =>
    show TrustBounds (handleRouteRequestTimeout s d).trustValues
    unfold handleRouteRequestTimeout
    split
    · exact h
    · exact h
  | evCleanup now => exact h
  | evCalculatePathTrust p => exact trustBounds_calculatePathTrust h p
  | evDetectCollision nh => exact trustBounds_detectCollision h nh
  | evInitInterface a now =>
    exact trustBounds_insert h (by norm_num) (le_refl 1) a
  | evSendRoutingUpdate =>
    exact trustBounds_foldOperatorIndex s.routingTable s.trustValues h
  | evUpdateRoute d nh t now =>
    exact trustBounds_updateTrustValue
      (s := { s with routeCache := mapInsert s.routeCache d ⟨nh, t, now, 1⟩ }) h nh t

theorem trustBounds_run (evs : List Event) :
    TrustBounds (run evs).trustValues := by
  suffices hs : ∀ s, TrustBounds s.trustValues →
      TrustBounds (evs.foldl step s).trustValues by
    exact hs initState (fun p hp => by simp [initState] at hp)
  induction evs with
  | nil => exact fun s h => h
  | cons e rest ih => exact fun s h => ih (step s e) (trustBounds_step s e h)

/-! ## Claim C1: trust-value range invariant -/

/-- Counterexample to claim C1 as stated.  A single failed path-trust
update on a previously unknown node stores the trust value 0 (the C++
`operator[]` default-inserts 0.0 and the failure branch clamps at 0.0, not
0.1), so not every reachable `m_trustValues` entry lies in [0.1, 1.0]. -/
theorem claim_C1_counterexample :
    ¬ (∀ (evs : List Event) (node : Nat) (t : ℚ),
        mapLookup (run evs).trustValues node = some t →
          1/10 ≤ t ∧ t ≤ 1) := by
  intro h
  have hl : mapLookup (run [Event.evUpdatePathTrust [5] false]).trustValues 5 =
      some 0 := by
    norm_num [run, step, updatePathTrust, updatePathTrustNode,
      calculatePathTrust, calcMinTrust, mapLookup, mapInsert, mapErase,
      initState]
  have h0 := (h [Event.evUpdatePathTrust [5] false] 5 0 hl).1
  norm_num at h0

/-- Claim C1, amended: in every state reachable by any sequence of legal
events, every trust value stored in `m_trustValues` lies in [0.0, 1.0]
(the failure branch of `UpdatePathTrust` clamps at 0.0 and `operator[]`
inserts 0.0, so 0.1 is not a lower bound; 1.0 remains an upper bound). -/
theorem claim_C1_trustRange (evs : List Event) (node : Nat) (t : ℚ)
    (h : mapLookup (run evs).trustValues node = some t) :
    0 ≤ t ∧ t ≤ 1 :=
  trustBounds_lookup (trustBounds_run evs) h

/-- Witness for the amended C1 on a concrete trace: the self trust value
installed by interface initialization. -/
theorem claim_C1_witness : (0 : ℚ) ≤ 1 ∧ (1 : ℚ) ≤ 1 :=
  claim_C1_trustRange [Event.evInitInterface 2 0] 2 1
    (by norm_num [run, step, initInterfaceEntry, mapLookup, mapInsert,
      mapErase, initState])

/-! ## Claim C3: path trust -/

theorem foldl_min_le_init (l : List ℚ) (a : ℚ) : l.foldl min a ≤ a := by
  induction l generalizing a with
  | nil => exact le_refl a
  | cons x rest ih => exact le_trans (ih (min a x)) (min_le_left a x)

theorem foldl_min_le_mem {l : List ℚ} {x : ℚ} (hx : x ∈ l) (a : ℚ) :
    l.foldl min a ≤ x := by
  induction l generalizing a with
  | nil => simp at hx
  | cons y rest ih =>
    rcases List.mem_cons.mp hx with rfl | hx'
    · exact le_trans (foldl_min_le_init rest (min a x)) (min_le_right a x)
    · exact ih hx' (min a y)

theorem foldl_min_eq_init_or_mem (l : List ℚ) (a : ℚ) :
    l.foldl min a = a ∨ l.foldl min a ∈ l := by
  induction l generalizing a with
  | nil => exact Or.inl rfl
  | cons x rest ih =>
    rcases ih (min a x) with h | h
    · rcases min_choice a x with hm | hm
      · exact Or.inl (by rw [List.foldl_cons, h, hm])
      · refine Or.inr ?_
        rw [List.foldl_cons, h, hm]
        exact List.mem_cons_self x rest
    · exact Or.inr (List.mem_cons_of_mem x h)

theorem calcMinTrust_eq_foldl_map (tv : List (Nat × ℚ)) (path : List Nat) :
    calcMinTrust tv path =
      (path.map (fun n => (mapLookup tv n).getD (1/2))).foldl min 1 := by
  unfold calcMinTrust
  rw [List.foldl_map]

theorem calculatePathTrust_cached (s : ProtoState) (path : List Nat) (v : ℚ)
    (hne : path ≠ []) (hv : mapLookup s.pathTrustValues path = some v) :
    (calculatePathTrust s path).1 = v := by
  unfold calculatePathTrust
  rw [if_neg hne, hv]

theorem calculatePathTrust_uncached (s : ProtoState) (path : List Nat)
    (hne : path ≠ []) (hcache : mapLookup s.pathTrustValues path = none) :
    (calculatePathTrust s path).1 = calcMinTrust s.trustValues path := by
  unfold calculatePathTrust
  rw [if_neg hne, hcache]

/-- Counterexample to claim C3 as stated.  `CalculatePathTrust` caches its
result keyed by the path and `UpdateTrustValue` never invalidates that
cache.  On the trace below the only member of the path `[7]` has current
trust 17/20, yet a repeated `CalculatePathTrust [7]` still returns the
stale cached 1/2, so the function does not return the minimum of the
members' current trust values. -/
theorem claim_C3_counterexample :
    (calculatePathTrust (run [Event.evCalculatePathTrust [7],
        Event.evUpdateTrust 7 1]) [7]).1 = 1/2 ∧
    mapLookup (run [Event.evCalculatePathTrust [7],
        Event.evUpdateTrust 7 1]).trustValues 7 = some (17/20) ∧
    (1/2 : ℚ) ≠ 17/20 := by
  refine ⟨?_, ?_, by norm_num⟩
  · norm_num [run, step, updateTrustValue, calculatePathTrust, calcMinTrust,
      mapLookup, mapInsert, mapErase, initState]
  · norm_num [run, step, updateTrustValue, calculatePathTrust, calcMinTrust,
      mapLookup, mapInsert, mapErase, initState]

/-- Claim C3, amended: in every reachable state `CalculatePathTrust`
returns 0 on the empty path and the cached value on a path present in
`m_pathTrustValues` (which `UpdateTrustValue` does not invalidate, so the
cached value may be stale); only on an uncached non-empty path does it
return the minimum over the members' current trust values, 0.5 standing in
for unknown nodes. -/
theorem claim_C3_pathTrustMin (evs : List Event) (path : List Nat) :
    (path = [] → (calculatePathTrust (run evs) path).1 = 0) ∧
    (∀ v, path ≠ [] → mapLookup (run evs).pathTrustValues path = some v →
      (calculatePathTrust (run evs) path).1 = v) ∧
    (path ≠ [] → mapLookup (run evs).pathTrustValues path = none →
      ((∀ n ∈ path, (calculatePathTrust (run evs) path).1 ≤
          (mapLookup (run evs).trustValues n).getD (1/2)) ∧
       (∃ n ∈ path, (calculatePathTrust (run evs) path).1 =
          (mapLookup (run evs).trustValues n).getD (1/2)))) := by
  refine ⟨?_, ?_, ?_⟩
  · intro h
    rw [h]
    rfl
  · intro v hne hv
    exact calculatePathTrust_cached _ _ _ hne hv
  · intro hne hcache
    have hval : (calculatePathTrust (run evs) path).1 =
        (path.map (fun n =>
          (mapLookup (run evs).trustValues n).getD (1/2))).foldl min 1 := by
      rw [calculatePathTrust_uncached _ _ hne hcache, calcMinTrust_eq_foldl_map]
    constructor
    · intro n hn
      rw [hval]
      exact foldl_min_le_mem (List.mem_map_of_mem _ hn) 1
    · rcases foldl_min_eq_init_or_mem
        (path.map (fun n => (mapLookup (run evs).trustValues n).getD (1/2))) 1
        with h1 | hmem
      · obtain ⟨n0, hn0⟩ : ∃ n0, n0 ∈ path := by
          cases path with
          | nil => exact absurd rfl hne
          | cons a rest => exact ⟨a, List.mem_cons_self a rest⟩
        refine ⟨n0, hn0, ?_⟩
        have hle : (calculatePathTrust (run evs) path).1 ≤
            (mapLookup (run evs).trustValues n0).getD (1/2) := by
          rw [hval]
          exact foldl_min_le_mem (List.mem_map_of_mem _ hn0) 1
        have hub : (mapLookup (run evs).trustValues n0).getD (1/2) ≤ 1 :=
          (trustBounds_getD (trustBounds_run evs) n0 (by norm_num)
            (by norm_num)).2
        have hone : (calculatePathTrust (run evs) path).1 = 1 := by
          rw [hval, h1]
        linarith
      · rcases List.mem_map.mp hmem with ⟨n0, hn0, hfn0⟩
        refine ⟨n0, hn0, ?_⟩
        rw [hval, ← hfn0]

/-- Witness for the amended C3: on an uncached two-node path the result is
bounded by both member trusts and attained by one of them. -/
theorem claim_C3_witness :
    (∀ n ∈ [3, 4],
      (calculatePathTrust (run [Event.evUpdateTrust 3 0]) [3, 4]).1 ≤
        (mapLookup (run [Event.evUpdateTrust 3 0]).trustValues n).getD (1/2)) ∧
    (∃ n ∈ [3, 4],
      (calculatePathTrust (run [Event.evUpdateTrust 3 0]) [3, 4]).1 =
        (mapLookup (run [Event.evUpdateTrust 3 0]).trustValues n).getD (1/2)) :=
  (claim_C3_pathTrustMin [Event.evUpdateTrust 3 0] [3, 4]).2.2
    (by decide)
    (by norm_num [run, step, updateTrustValue, mapLookup, mapInsert,
      mapErase, initState])

end Frta
